import Mathlib

/-! clone-org: a shallow embedding of the Go sources and the properties checked on it

The development follows the three source files:

* `clone-org.go`: `Repo`, `ErrClone`, `ErrCreateDir`, `sem`, `Clone`, `AllOrgRepos`,
  `findRepos`, `CreateDir`;
* `internal/ui/initial.go`: `initialModel`, its `Update`, `getReposCmd`;
* `cmd/clone-org/main.go`: the command-line action.

Everything outside the repository (the operating system, the GitHub API, the
`os/exec`, `path/filepath`, Bubble Tea and `urfave/cli` libraries) appears either as an
explicit argument standing for what the outside world answers, or as a small model of
the documented library behaviour.
-/

namespace CloneOrg

/-! ## Go error values -/

/-- Go error values as the program builds them: `errors.New text` is `new text`, and
`fmt.Errorf` with one `%w` verb is `wrap text inner`, where `text` is the formatted
message and `inner` the wrapped error. -/
inductive GoError where
  | new (text : String)
  | wrap (text : String) (inner : GoError)
deriving DecidableEq, Repr

/-- The method `Error()`: the message of an error. -/
def GoError.Error : GoError → String
  | .new text => text
  | .wrap text _ => text

/-- The function `errors.Unwrap`. -/
def GoError.Unwrap : GoError → Option GoError
  | .new _ => none
  | .wrap _ inner => some inner

/-- The function `errors.Is`: the target is the error itself or is found down its
chain of wrapped errors. -/
def GoError.Is : GoError → GoError → Bool
  | .new text, target => decide (GoError.new text = target)
  | .wrap text inner, target => decide (GoError.wrap text inner = target) || inner.Is target

/-- `var ErrClone = errors.New("git clone failed")`. -/
def ErrClone : GoError := .new "git clone failed"

/-- `var ErrCreateDir = errors.New("failed to create directory")`. -/
def ErrCreateDir : GoError := .new "failed to create directory"

/-! ## `path/filepath` on a Unix system -/

/-- Split a path at every `/`; the pieces may be empty. -/
def splitSlash : List Char → List (List Char)
  | [] => [[]]
  | c :: cs =>
    if c = '/' then [] :: splitSlash cs
    else
      match splitSlash cs with
      | [] => [[c]]
      | piece :: pieces => (c :: piece) :: pieces

/-- The function `strings.Join(elems, "/")`. -/
def joinSlash : List (List Char) → List Char
  | [] => []
  | [a] => a
  | a :: b :: rest => a ++ '/' :: joinSlash (b :: rest)

/-- One path element processed by `filepath.Clean`: empty and `.` elements vanish,
`..` removes the element before it when there is one to remove, is dropped at the
root, and is kept at the start of a relative path; any other element is kept. -/
def cleanStep (rooted : Bool) (out : List (List Char)) (elem : List Char) : List (List Char) :=
  if elem = [] ∨ elem = ['.'] then out
  else if elem = ['.', '.'] then
    match out.getLast? with
    | some top => if top = ['.', '.'] then out ++ [elem] else out.dropLast
    | none => if rooted then out else out ++ [elem]
  else out ++ [elem]

/-- The function `filepath.Clean`, element by element, as documented: the shortest
path equivalent to the given one by purely lexical processing; the empty result is
`.`. -/
def filepath.Clean (path : List Char) : List Char :=
  if path = [] then ['.']
  else
    let rooted : Bool := path.head? = some '/'
    let out := joinSlash ((splitSlash path).foldl (cleanStep rooted) [])
    if rooted then '/' :: out
    else if out = [] then ['.'] else out

/-- The helper `join` of `path/filepath`: leading empty elements are ignored, the
rest is joined with the separator and cleaned; no non-empty element gives `""`. -/
def filepath.joinChars : List (List Char) → List Char
  | [] => []
  | e :: rest => if e = [] then filepath.joinChars rest else filepath.Clean (joinSlash (e :: rest))

/-- The function `filepath.Join`. -/
def filepath.Join (elem : List String) : String :=
  String.mk (filepath.joinChars (elem.map String.data))

/-! ## `clone-org.go`: `Repo`, `sem`, `Clone` -/

/-- The type `Repo`: the repository data the program needs. -/
structure Repo where
  Name : String
  URL : String
deriving DecidableEq, Repr

/-- The capacity of `var sem = make(chan bool, 20)`. -/
def semCap : Nat := 20

/-- The statement `sem <- true` on a channel holding `held` values: enabled only
while the buffer is not full, and then the buffer holds one value more; `none` is a
blocked send. -/
def semSend (held : Nat) : Option Nat :=
  if held < semCap then some (held + 1) else none

/-- The statement `<-sem` on a channel holding `held` values: enabled only while the
buffer is not empty; `none` is a blocked receive. -/
def semRecv (held : Nat) : Option Nat :=
  if 0 < held then some (held - 1) else none

/-- An external command as built by `exec.Command(name, arg...)`. -/
structure Command where
  Name : String
  Args : List String
deriving DecidableEq, Repr

/-- What happens to an external process: it cannot be started, it exits with a
status, or it is ended by a signal; the last two come with the combined standard
output and standard error. -/
inductive ProcOutcome where
  | spawnFailure (reason : String)
  | exited (status : Nat) (output : String)
  | signaled (signal : Nat) (output : String)
deriving DecidableEq, Repr

/-- The method `cmd.CombinedOutput()` of `os/exec`: the captured bytes and an error
that is nil exactly for a process that ran and exited with status zero. -/
def CombinedOutput : ProcOutcome → String × Option GoError
  | .spawnFailure reason => ("", some (.new reason))
  | .exited status output =>
    (output, if status = 0 then none else some (.new "exit status"))
  | .signaled _ output => (output, some (.new "signal"))

/-- The state `Clone` works on: the number of values in the channel `sem` and the
external commands run so far. -/
structure World where
  sem : Nat
  ran : List Command
deriving DecidableEq, Repr

/-- The target of the clone: `filepath.Join(destination, repo.Name)`. -/
def cloneTarget (repo : Repo) (destination : String) : String :=
  filepath.Join [destination, repo.Name]

/-- The command `Clone` builds (lines 40 to 43). -/
def cloneCommand (repo : Repo) (destination : String) : Command :=
  { Name := "git"
    Args := ["clone", "--depth", "1", repo.URL, cloneTarget repo destination] }

/-- The function `Clone`: send on `sem`, run git through `run` (the answer of the
operating system to a command), and on every path receive from `sem` (the deferred
function) before returning. `none` is a call that stays blocked on the channel. -/
def Clone (run : Command → ProcOutcome) (repo : Repo) (destination : String) (w : World) :
    Option (Option GoError × World) :=
  match semSend w.sem with
  | none => none
  | some held =>
    let cmd := cloneCommand repo destination
    let out := CombinedOutput (run cmd)
    let ret : Option GoError :=
      match out.2 with
      | some _ =>
        some (.wrap (ErrClone.Error ++ ": " ++ repo.Name ++ ": " ++ out.1) ErrClone)
      | none => none
    match semRecv held with
    | none => none
    | some free => some (ret, { sem := free, ran := w.ran ++ [cmd] })

/-! ## Concurrent `Clone` calls -/

/-- Where one `Clone` call stands: before `sem <- true`, between the send and the
git process, between the git process and the deferred `<-sem`, or returned. -/
inductive Phase where
  | atAcquire
  | atGit
  | atRelease
  | returned
deriving DecidableEq, Repr

/-- A system of concurrent `Clone` calls sharing the package-level channel. -/
structure Sys where
  sem : Nat
  calls : List Phase
deriving DecidableEq, Repr

/-- Call `i` takes its next step, when that step is enabled. -/
def stepCall (s : Sys) (i : Nat) : Option Sys :=
  match s.calls[i]? with
  | some .atAcquire => (semSend s.sem).map fun held => { sem := held, calls := s.calls.set i .atGit }
  | some .atGit => some { sem := s.sem, calls := s.calls.set i .atRelease }
  | some .atRelease =>
    (semRecv s.sem).map fun held => { sem := held, calls := s.calls.set i .returned }
  | _ => none

/-- The system before any of `n` calls has started. -/
def initSys (n : Nat) : Sys := { sem := 0, calls := List.replicate n .atAcquire }

/-- Run an interleaving: the schedule names, step after step, the call that tries to
move; a call whose step is not enabled (or that does not exist) leaves the state as
it is. -/
def runSchedule (s : Sys) : List Nat → Sys
  | [] => s
  | i :: rest => runSchedule ((stepCall s i).getD s) rest

/-- A call is running when it is between its acquire and its release. -/
def Phase.running : Phase → Bool
  | .atGit => true
  | .atRelease => true
  | _ => false

/-- The number of calls between acquire and release: the permits held. -/
def inFlight (s : Sys) : Nat := s.calls.countP Phase.running

/-- The permits available: the free slots of the channel buffer. -/
def available (s : Sys) : Nat := semCap - s.sem

/-! ## `clone-org.go`: `findRepos`, `AllOrgRepos` -/

/-- The type `github.Repository`, with the two fields the program reads. Both are
pointers (`*string`): `none` is the nil pointer of a repository listed without
that field. -/
structure Repository where
  Name : Option String
  SSHURL : Option String
deriving DecidableEq, Repr

/-- What a call comes to: it has not returned (the listing call has no further
answer), it panics (a nil pointer is dereferenced), or it returns a value. -/
inductive GoResult (α : Type) where
  | pending
  | panics
  | returns (value : α)
deriving DecidableEq, Repr

/-- One answer of `client.Repositories.ListByOrg`: the page is fetched, with its
repositories and the `NextPage` of the response, or the call fails, with the error
and the `NextPage` of the response when the response is not nil. -/
inductive PageResponse where
  | fetched (repos : List Repository) (nextPage : Nat)
  | failed (resp : Option Nat) (err : GoError)
deriving DecidableEq, Repr

/-- The loop of `findRepos`. The listing call is the list of its answers to the
successive calls (each call asks for the page the previous answer named, so the
answers are all that matters); `result` is the slice built so far. With no answer
left the loop has not returned: `none`. -/
def findReposLoop : List PageResponse → List Repository → Option (List Repository × Option GoError)
  | [], _ => none
  | .failed resp _ :: rest, result =>
    match resp with
    | some nextPage =>
      if nextPage ≠ 0 then findReposLoop rest result
      else some (result, none)
    | none => some (result, none)
  | .fetched repos nextPage :: rest, result =>
    if nextPage = 0 then some (result ++ repos, none)
    else findReposLoop rest (result ++ repos)

/-- The function `findRepos`; `client org` is what the listing call answers for the
organization. -/
def findRepos (client : String → List PageResponse) (org : String) :
    Option (List Repository × Option GoError) :=
  findReposLoop (client org) []

/-- The loop `for _, repo := range result` of `AllOrgRepos` (lines 62 to 67): each
repository is appended as `Repo{Name: *repo.Name, URL: *repo.SSHURL}`; `none` is the
panic of dereferencing a nil `Name` or `SSHURL`. -/
def appendRepos : List Repository → List Repo → Option (List Repo)
  | [], repos => some repos
  | repo :: rest, repos =>
    match repo.Name, repo.SSHURL with
    | some name, some url => appendRepos rest (repos ++ [{ Name := name, URL := url }])
    | _, _ => none

/-- The function `AllOrgRepos`; `github token` is the client built from the token. -/
def AllOrgRepos (github : String → String → List PageResponse) (token org : String) :
    GoResult (List Repo × Option GoError) :=
  match findRepos (github token) org with
  | none => .pending
  | some (_, some err) => .returns ([], some err)
  | some (result, none) =>
    match appendRepos result [] with
    | none => .panics
    | some repos => .returns (repos, none)

/-! ## `clone-org.go`: `CreateDir` -/

/-- What `os.Stat` answers: an error, or the file information, of which `IsDir()` is
read. -/
inductive StatResult where
  | error (text : String)
  | info (isDir : Bool)
deriving DecidableEq, Repr

/-- The file system as `CreateDir` sees it: the answer of `os.Stat` and the answer of
`os.MkdirAll` (nil, or an error) for a path. -/
structure FileSystem where
  Stat : String → StatResult
  MkdirAll : String → Option GoError

/-- The calls `CreateDir` makes on the file system. -/
inductive FsCall where
  | stat (path : String)
  | mkdirAll (path : String) (perm : Nat)
deriving DecidableEq, Repr

/-- The function `CreateDir`: the error it returns and the file-system calls it
made, in order. -/
def CreateDir (fs : FileSystem) (directory : String) : Option GoError × List FsCall :=
  match fs.Stat directory with
  | .error _ =>
    match fs.MkdirAll directory with
    | some err =>
      (some (.wrap (ErrCreateDir.Error ++ ": " ++ directory ++ ": " ++ err.Error) ErrCreateDir),
        [.stat directory, .mkdirAll directory 0o700])
    | none => (none, [.stat directory, .mkdirAll directory 0o700])
  | .info isDir =>
    if isDir then (none, [.stat directory])
    else
      (some (.wrap (ErrCreateDir.Error ++ ": " ++ directory ++ " is a file") ErrCreateDir),
        [.stat directory])

/-! ## `internal/ui/initial.go` -/

/-- The type `spinner.Model` of the bubbles library, as far as the program is
concerned: the chosen spinner and a frame counter. -/
structure SpinnerModel where
  Spinner : String
  frame : Nat
deriving DecidableEq, Repr

/-- Modelled from the spec: the clone model (`newCloneModel`, its `Init` and
`Update`) is not among the sources; the model `newCloneModel` builds is recorded as
the arguments it is given (the repository list, the organization, the destination,
the interactivity flag and the window size). -/
structure cloneModel where
  repos : List Repo
  org : String
  destination : String
  tui : Bool
  width : Int
  height : Int
deriving DecidableEq, Repr

/-- Modelled from the spec: `newCloneModel` is not among the sources; see
`cloneModel`. -/
def newCloneModel (repos : List Repo) (org destination : String) (tui : Bool)
    (width height : Int) : cloneModel :=
  { repos := repos, org := org, destination := destination, tui := tui,
    width := width, height := height }

/-- The type `initialModel`. -/
structure initialModel where
  err : Option GoError
  spinner : SpinnerModel
  token : String
  org : String
  destination : String
  loading : Bool
  tui : Bool
  width : Int
  height : Int
deriving DecidableEq, Repr

/-- The function `NewInitialModel`. -/
def NewInitialModel (token org destination : String) (tui : Bool) : initialModel :=
  { err := none
    spinner := { Spinner := "Jump", frame := 0 }
    token := token
    org := org
    destination := destination
    loading := true
    tui := tui
    width := 0
    height := 0 }

/-- The messages `Update` tells apart: `tea.WindowSizeMsg`, `errMsg` (built as
`errMsg{err}` and read as `msg.error`), `gotRepoListMsg`, `tea.KeyMsg` (with what
`msg.String()` gives), and any other message. -/
inductive Msg where
  | WindowSizeMsg (Width Height : Int)
  | errMsg (error : GoError)
  | gotRepoListMsg (repos : List Repo)
  | KeyMsg (text : String)
  | other (tag : Nat)
deriving DecidableEq, Repr

/-- The commands `Update` returns: nil, `tea.Quit`, the `Init` command of a clone
model, or a command of the spinner. -/
inductive Cmd where
  | nil
  | Quit
  | cloneInit (list : cloneModel)
  | spinner (tag : Nat)
deriving DecidableEq, Repr

/-- The value of type `tea.Model` that `Update` returns: still the initial model, or
a clone model. -/
inductive Model where
  | initial (m : initialModel)
  | clone (list : cloneModel)
deriving DecidableEq, Repr

/-- The method `initialModel.Update`; `spinnerUpdate` is `spinner.Model.Update` of the
bubbles library. -/
def initialModel.Update (spinnerUpdate : SpinnerModel → Msg → SpinnerModel × Cmd)
    (m : initialModel) (msg : Msg) : Model × Cmd :=
  match msg with
  | .WindowSizeMsg width height =>
    (.initial { m with height := height, width := width }, .nil)
  | .errMsg error =>
    (.initial { m with loading := false, err := some error }, .Quit)
  | .gotRepoListMsg repos =>
    let m := { m with loading := false }
    let list := newCloneModel repos m.org m.destination m.tui m.width m.height
    (.clone list, .cloneInit list)
  | .KeyMsg text =>
    if text = "ctrl+c" ∨ text = "q" ∨ text = "esc" then (.initial m, .Quit)
    else (.initial m, .nil)
  | .other tag =>
    let r := spinnerUpdate m.spinner (.other tag)
    (.initial { m with spinner := r.1 }, r.2)

/-- The function the command `getReposCmd` runs. -/
def getReposCmd (github : String → String → List PageResponse) (fs : FileSystem)
    (token org destination : String) : GoResult Msg :=
  match AllOrgRepos github token org with
  | .pending => .pending
  | .panics => .panics
  | .returns (_, some err) => .returns (.errMsg err)
  | .returns (repos, none) =>
    match (CreateDir fs destination).1 with
    | some err => .returns (.errMsg err)
    | none => .returns (.gotRepoListMsg repos)

/-! ## Bubble Tea's program -/

/-- The event loop of a Bubble Tea program: each message goes to the model's
update function; the loop ends when the command returned is `tea.Quit`. The result
is the last model and whether the program quit. -/
def eventLoop (update : Model → Msg → Model × Cmd) : Model → List Msg → Model × Bool
  | m, [] => (m, false)
  | m, msg :: rest =>
    match update m msg with
    | (next, .Quit) => (next, true)
    | (next, _) => eventLoop update next rest

/-- The update function of the program's current model; `cloneUpdate` is the
`Update` of the clone model, which is not among the sources. -/
def Model.Update (spinnerUpdate : SpinnerModel → Msg → SpinnerModel × Cmd)
    (cloneUpdate : cloneModel → Msg → Model × Cmd) : Model → Msg → Model × Cmd
  | .initial m, msg => m.Update spinnerUpdate msg
  | .clone list, msg => cloneUpdate list msg

/-- One run of a program. -/
structure ProgramRun where
  final : Model
  quit : Bool
  err : Option GoError
deriving DecidableEq, Repr

/-- The run behind `p.Start()`: the program fails with an error of the runtime
(`failure`: the terminal cannot be set up, the program is killed), or it runs the
event loop on the messages delivered and returns a nil error. -/
def programRun (update : Model → Msg → Model × Cmd) (failure : Option GoError)
    (msgs : List Msg) (m : Model) : ProgramRun :=
  match failure with
  | some e => { final := m, quit := false, err := some e }
  | none =>
    let r := eventLoop update m msgs
    { final := r.1, quit := r.2, err := none }

/-! ## `cmd/clone-org/main.go` -/

/-- The flags read from the `cli.Context`. -/
structure Context where
  token : String
  org : String
  destination : String
  noTui : Bool
deriving DecidableEq, Repr

/-- What the action reads from the process environment: whether standard output
is a terminal, and `os.TempDir()`. -/
structure Env where
  isTerminal : Bool
  TempDir : String
deriving DecidableEq, Repr

/-- The value `cli.NewExitError(message, exitCode)`. -/
structure ExitError where
  message : String
  exitCode : Nat
deriving DecidableEq, Repr

/-- The options given to `tea.NewProgram`. -/
inductive ProgramOption where
  | WithoutRenderer
deriving DecidableEq, Repr

/-- The function assigned to `app.Action`; `Start` is `tea.NewProgram(model,
opts...)` followed by `p.Start()`. -/
def action (Start : initialModel → List ProgramOption → Option GoError) (env : Env)
    (c : Context) : Option ExitError :=
  if c.token = "" then some { message := "missing github token", exitCode := 1 }
  else if c.org = "" then some { message := "missing organization name", exitCode := 1 }
  else
    let destination :=
      if c.destination = "" then filepath.Join [env.TempDir, c.org] else c.destination
    let isTUI := env.isTerminal && !c.noTui
    let opts : List ProgramOption := if isTUI then [] else [.WithoutRenderer]
    match Start (NewInitialModel c.token c.org destination isTUI) opts with
    | some err => some { message := err.Error, exitCode := 1 }
    | none => none

/-- The exit status of the process: `app.Run` hands an exit error to the library's
exit handler, which exits with its code; with a nil error `main` returns and the
status is zero. -/
def exitStatus : Option ExitError → Nat
  | none => 0
  | some e => e.exitCode

/-! ## Notions used to state the properties -/

/-- The page number after which the loop of `findRepos` goes on: the `NextPage` of
the response, zero when there is no response. -/
def PageResponse.nextPageOf : PageResponse → Nat
  | .fetched _ nextPage => nextPage
  | .failed (some nextPage) _ => nextPage
  | .failed none _ => 0

/-- The repositories of a page that was fetched; none for a failed page. -/
def PageResponse.reposOf : PageResponse → List Repository
  | .fetched repos _ => repos
  | .failed _ _ => []

/-- Whether the page fetch failed. -/
def PageResponse.isFailed : PageResponse → Bool
  | .fetched _ _ => false
  | .failed _ _ => true

/-- A finite sequence of page responses: every answer but the last names a next
page, and the last one names none. -/
def Paginates (script : List PageResponse) : Prop :=
  (∀ p ∈ script.dropLast, p.nextPageOf ≠ 0) ∧
    script.getLast?.map PageResponse.nextPageOf = some 0

instance (script : List PageResponse) : Decidable (Paginates script) := by
  unfold Paginates
  infer_instance

/-- A file system in which every path is a directory. -/
def fsIsDir : FileSystem := { Stat := fun _ => .info true, MkdirAll := fun _ => none }

/-- A file system in which every path is a regular file. -/
def fsIsFile : FileSystem := { Stat := fun _ => .info false, MkdirAll := fun _ => none }

/-- A file system in which no path exists and no directory can be created. -/
def fsMkdirDenied : FileSystem :=
  { Stat := fun _ => .error "stat d: no such file or directory"
    MkdirAll := fun _ => some (.new "mkdir d: permission denied") }

/-- The in-order concatenation of the repositories of the pages fetched
successfully. -/
def fetchedRepos : List PageResponse → List Repository
  | [] => []
  | p :: rest => p.reposOf ++ fetchedRepos rest

/-- The name and SSH URL of a listed repository, as listed. -/
def Repository.listed (repo : Repository) : Option String × Option String :=
  (repo.Name, repo.SSHURL)

/-- The name and URL of a `Repo`, as a listed pair. -/
def Repo.listed (repo : Repo) : Option String × Option String :=
  (some repo.Name, some repo.URL)

/-- A repository name that is one plain path element: not empty, without a
separator, and neither `.` nor `..`. -/
def plainName (name : String) : Prop :=
  name.data ≠ [] ∧ '/' ∉ name.data ∧ name.data ≠ ['.'] ∧ name.data ≠ ['.', '.']

/-- What `filepath.Join` makes of the destination in front of a plain name: nothing
for the empty destination, and otherwise the cleaned destination followed by a
separator. -/
def cleanedDir (dir : List Char) : List Char :=
  if dir = [] then []
  else
    let rooted : Bool := dir.head? = some '/'
    let out := (splitSlash dir).foldl (cleanStep rooted) []
    (if rooted then ['/'] else []) ++ (if out = [] then [] else joinSlash out ++ ['/'])

/-- The invariant of the permit pool: the channel holds one value for each call
between its acquire and its release, and never more than its capacity. -/
def SysInv (s : Sys) : Prop := s.sem = inFlight s ∧ s.sem ≤ semCap

/-! ## The permit pool -/

theorem countP_running_set (l : List Phase) (i : Nat) (a b : Phase) (h : l[i]? = some a) :
    (l.set i b).countP Phase.running + (if a.running then 1 else 0) =
      l.countP Phase.running + (if b.running then 1 else 0) := by
  induction l generalizing i with
  | nil => simp at h
  | cons x xs ih =>
    cases i with
    | zero =>
      simp only [List.getElem?_cons_zero, Option.some.injEq] at h
      subst h
      simp only [List.set_cons_zero, List.countP_cons]
      omega
    | succ j =>
      simp only [List.getElem?_cons_succ] at h
      have := ih j h
      simp only [List.set_cons_succ, List.countP_cons]
      omega

theorem initSys_inv (n : Nat) : SysInv (initSys n) := by
  constructor
  · show 0 = List.countP Phase.running (List.replicate n Phase.atAcquire)
    symm
    rw [List.countP_eq_zero]
    intro a ha
    rw [List.eq_of_mem_replicate ha]
    simp [Phase.running]
  · simp [initSys]

theorem stepCall_inv (s t : Sys) (i : Nat) (hs : SysInv s) (h : stepCall s i = some t) :
    SysInv t := by
  obtain ⟨hsem, hcap⟩ := hs
  unfold stepCall at h
  split at h
  · next hi =>
    have hc := countP_running_set s.calls i .atAcquire .atGit hi
    simp only [semSend] at h
    split at h
    · next hlt =>
      simp only [Option.map_some', Option.some.injEq] at h
      subst h
      simp [Phase.running] at hc
      constructor
      · simp only [inFlight] at hsem ⊢
        omega
      · show s.sem + 1 ≤ semCap
        omega
    · simp at h
  · next hi =>
    have hc := countP_running_set s.calls i .atGit .atRelease hi
    simp only [Option.some.injEq] at h
    subst h
    simp [Phase.running] at hc
    constructor
    · simp only [inFlight] at hsem ⊢
      omega
    · exact hcap
  · next hi =>
    have hc := countP_running_set s.calls i .atRelease .returned hi
    simp only [semRecv] at h
    split at h
    · next hpos =>
      simp only [Option.map_some', Option.some.injEq] at h
      subst h
      simp [Phase.running] at hc
      constructor
      · simp only [inFlight] at hsem ⊢
        omega
      · show s.sem - 1 ≤ semCap
        omega
    · simp at h
  · simp at h

theorem runSchedule_inv (sched : List Nat) (s : Sys) (hs : SysInv s) :
    SysInv (runSchedule s sched) := by
  induction sched generalizing s with
  | nil => exact hs
  | cons i rest ih =>
    simp only [runSchedule]
    apply ih
    cases h : stepCall s i with
    | none => simpa using hs
    | some t => simpa using stepCall_inv s t i hs h

/-- C1: for every number of concurrent `Clone` calls and every interleaving of their
acquire, git and release steps, the state reached has at most 20 calls between
acquire and release, and the permits held plus the permits available are 20. -/
theorem permit_pool_invariant (n : Nat) (sched : List Nat) :
    inFlight (runSchedule (initSys n) sched) ≤ 20 ∧
      inFlight (runSchedule (initSys n) sched) + available (runSchedule (initSys n) sched) = 20 := by
  obtain ⟨hsem, hcap⟩ := runSchedule_inv sched (initSys n) (initSys_inv n)
  simp only [available, semCap] at *
  omega

/-! ## `Clone` -/

theorem Clone_admitted (run : Command → ProcOutcome) (repo : Repo) (destination : String)
    (w : World) (h : w.sem < semCap) :
    Clone run repo destination w =
      some ((match (CombinedOutput (run (cloneCommand repo destination))).2 with
          | some _ =>
            some (GoError.wrap (ErrClone.Error ++ ": " ++ repo.Name ++ ": " ++
              (CombinedOutput (run (cloneCommand repo destination))).1) ErrClone)
          | none => none),
        { sem := w.sem, ran := w.ran ++ [cloneCommand repo destination] }) := by
  simp [Clone, semSend, semRecv, h]

theorem CombinedOutput_nil_iff (o : ProcOutcome) :
    (CombinedOutput o).2 = none ↔ ∃ output, o = .exited 0 output := by
  cases o with
  | spawnFailure reason => simp [CombinedOutput]
  | exited status output =>
    by_cases hs : status = 0
    · simp [CombinedOutput, hs]
    · simp [CombinedOutput, hs]
  | signaled signal output => simp [CombinedOutput]

theorem ErrClone_text : ErrClone.Error ++ ": " = "git clone failed: " := by decide

/-- C2: a `Clone` call that is admitted returns; it returns nil exactly when the git
process ran and exited with status zero, and otherwise returns an error that wraps
`ErrClone` and whose message is `git clone failed: <repo.Name>: <combined output>`. -/
theorem clone_result (run : Command → ProcOutcome) (repo : Repo) (destination : String)
    (w : World) (h : w.sem < semCap) :
    ∃ ret w', Clone run repo destination w = some (ret, w') ∧
      (ret = none ↔ ∃ output, run (cloneCommand repo destination) = .exited 0 output) ∧
      ((¬ ∃ output, run (cloneCommand repo destination) = .exited 0 output) →
        ∃ err, ret = some err ∧ err.Is ErrClone = true ∧ err.Unwrap = some ErrClone ∧
          err.Error = "git clone failed: " ++ repo.Name ++ ": " ++
            (CombinedOutput (run (cloneCommand repo destination))).1) := by
  refine ⟨_, _, Clone_admitted run repo destination w h, ?_, ?_⟩
  · rw [← CombinedOutput_nil_iff]
    cases (CombinedOutput (run (cloneCommand repo destination))).2 <;> simp
  · intro hne
    rw [← CombinedOutput_nil_iff] at hne
    cases hc : (CombinedOutput (run (cloneCommand repo destination))).2 with
    | none => exact absurd hc hne
    | some e =>
      refine ⟨_, rfl, ?_, rfl, ?_⟩
      · simp [GoError.Is, ErrClone]
      · show ErrClone.Error ++ ": " ++ repo.Name ++ ": " ++ _ = _
        rw [ErrClone_text]

/-- Witness of C2: a failing clone of repository `r` with nothing held before. -/
theorem clone_result_witness :
    (0 : Nat) < semCap ∧
      ∃ ret w', Clone (fun _ => .exited 128 "fatal: repository not found")
          { Name := "r", URL := "git@github.com:o/r.git" } "d" { sem := 0, ran := [] } =
            some (ret, w') ∧
        (ret = none ↔ ∃ output, (fun _ => ProcOutcome.exited 128 "fatal: repository not found")
          (cloneCommand { Name := "r", URL := "git@github.com:o/r.git" } "d") =
            .exited 0 output) ∧
        ((¬ ∃ output, (fun _ => ProcOutcome.exited 128 "fatal: repository not found")
            (cloneCommand { Name := "r", URL := "git@github.com:o/r.git" } "d") =
              .exited 0 output) →
          ∃ err, ret = some err ∧ err.Is ErrClone = true ∧ err.Unwrap = some ErrClone ∧
            err.Error = "git clone failed: " ++ "r" ++ ": " ++
              (CombinedOutput ((fun _ => ProcOutcome.exited 128 "fatal: repository not found")
                (cloneCommand { Name := "r", URL := "git@github.com:o/r.git" } "d"))).1) :=
  ⟨by decide, clone_result _ _ _ _ (by decide)⟩

/-- C3: a `Clone` call that can acquire a permit returns with as many permits held
as before the call, whatever the git process did; and once every call of a batch of
concurrent calls has returned, no permit is held: the pool is at full capacity. -/
theorem clone_releases_permit (run : Command → ProcOutcome) (repo : Repo)
    (destination : String) (w : World) (h : w.sem < semCap) (n : Nat) (sched : List Nat)
    (hdone : ∀ p ∈ (runSchedule (initSys n) sched).calls, p = Phase.returned) :
    (∃ ret w', Clone run repo destination w = some (ret, w') ∧ w'.sem = w.sem) ∧
      (runSchedule (initSys n) sched).sem = 0 ∧
      available (runSchedule (initSys n) sched) = 20 := by
  refine ⟨⟨_, _, Clone_admitted run repo destination w h, rfl⟩, ?_⟩
  obtain ⟨hsem, _⟩ := runSchedule_inv sched (initSys n) (initSys_inv n)
  have hz : inFlight (runSchedule (initSys n) sched) = 0 := by
    rw [inFlight, List.countP_eq_zero]
    intro p hp
    rw [hdone p hp]
    simp [Phase.running]
  rw [hz] at hsem
  simp [available, semCap, hsem]

/-- Witness of C3: a failing clone with 19 permits held, and a batch of two calls run
to the end. -/
theorem clone_releases_permit_witness :
    (∃ ret w', Clone (fun _ => .spawnFailure "exec: git: not found")
        { Name := "r", URL := "u" } "d" { sem := 19, ran := [] } = some (ret, w') ∧
          w'.sem = 19) ∧
      (runSchedule (initSys 2) [0, 1, 0, 0, 1, 1]).sem = 0 ∧
      available (runSchedule (initSys 2) [0, 1, 0, 0, 1, 1]) = 20 :=
  clone_releases_permit (fun _ => .spawnFailure "exec: git: not found")
    { Name := "r", URL := "u" } "d" { sem := 19, ran := [] } (by decide) 2 [0, 1, 0, 0, 1, 1]
    (by decide)

/-! ## The lookup: `findRepos`, `AllOrgRepos`, `getReposCmd` -/

theorem reposOf_fetched (repos : List Repository) (nextPage : Nat) :
    (PageResponse.fetched repos nextPage).reposOf = repos := rfl

theorem reposOf_failed (resp : Option Nat) (err : GoError) :
    (PageResponse.failed resp err).reposOf = [] := rfl

theorem findReposLoop_paginates (script : List PageResponse) (result : List Repository)
    (h : Paginates script) :
    findReposLoop script result = some (result ++ fetchedRepos script, none) := by
  induction script generalizing result with
  | nil => simp [Paginates] at h
  | cons p rest ih =>
    cases rest with
    | nil =>
      obtain ⟨_, hlast⟩ := h
      simp only [List.getLast?_singleton, Option.map_some', Option.some.injEq] at hlast
      cases p with
      | fetched repos nextPage =>
        simp only [PageResponse.nextPageOf] at hlast
        simp [findReposLoop, fetchedRepos, reposOf_fetched, reposOf_failed, hlast]
      | failed resp err =>
        cases resp with
        | none => simp [findReposLoop, fetchedRepos, reposOf_fetched, reposOf_failed]
        | some nextPage =>
          simp only [PageResponse.nextPageOf] at hlast
          simp [findReposLoop, fetchedRepos, reposOf_fetched, reposOf_failed, hlast]
    | cons q rest' =>
      obtain ⟨hinit, hlast⟩ := h
      have hp : p.nextPageOf ≠ 0 := hinit p (by simp [List.dropLast])
      have hrest : Paginates (q :: rest') := by
        constructor
        · intro x hx
          exact hinit x (by simp only [List.dropLast_cons₂]; exact List.mem_cons_of_mem _ hx)
        · simpa [List.getLast?_cons_cons] using hlast
      cases p with
      | fetched repos nextPage =>
        simp only [PageResponse.nextPageOf] at hp
        simp only [findReposLoop, hp, if_false, fetchedRepos, reposOf_fetched, reposOf_failed]
        rw [ih (result ++ repos) hrest]
        simp [fetchedRepos]
      | failed resp err =>
        cases resp with
        | none => simp [PageResponse.nextPageOf] at hp
        | some nextPage =>
          simp only [PageResponse.nextPageOf] at hp
          simp only [findReposLoop, fetchedRepos, reposOf_fetched, reposOf_failed]
          rw [if_pos hp, ih result hrest]
          simp [fetchedRepos]

theorem findRepos_paginates (client : String → List PageResponse) (org : String)
    (h : Paginates (client org)) :
    findRepos client org = some (fetchedRepos (client org), none) := by
  simp [findRepos, findReposLoop_paginates _ _ h]

theorem AllOrgRepos_paginates (github : String → String → List PageResponse)
    (token org : String) (h : Paginates (github token org)) :
    AllOrgRepos github token org =
      match appendRepos (fetchedRepos (github token org)) [] with
      | none => .panics
      | some repos => .returns (repos, none) := by
  simp only [AllOrgRepos, findRepos_paginates (github token) org h]

theorem getReposCmd_paginates (github : String → String → List PageResponse)
    (fs : FileSystem) (token org destination : String) (h : Paginates (github token org)) :
    getReposCmd github fs token org destination =
      match appendRepos (fetchedRepos (github token org)) [] with
      | none => .panics
      | some repos =>
        .returns (match (CreateDir fs destination).1 with
          | some err => .errMsg err
          | none => .gotRepoListMsg repos) := by
  simp only [getReposCmd, AllOrgRepos_paginates github token org h]
  cases appendRepos (fetchedRepos (github token org)) [] with
  | none => rfl
  | some repos => cases (CreateDir fs destination).1 <;> rfl

theorem appendRepos_listed (result : List Repository) (repos : List Repo)
    (h : ∀ repo ∈ result, repo.Name ≠ none ∧ repo.SSHURL ≠ none) :
    ∃ more, appendRepos result repos = some (repos ++ more) ∧
      more.map Repo.listed = result.map Repository.listed := by
  induction result generalizing repos with
  | nil => exact ⟨[], by simp [appendRepos], rfl⟩
  | cons repo rest ih =>
    obtain ⟨hn, hu⟩ := h repo (List.mem_cons_self _ _)
    obtain ⟨name, url⟩ := repo
    cases name with
    | none => exact absurd rfl hn
    | some name =>
      cases url with
      | none => exact absurd rfl hu
      | some url =>
        obtain ⟨more, hmore, hlisted⟩ :=
          ih (repos ++ [{ Name := name, URL := url }])
            (fun x hx => h x (List.mem_cons_of_mem _ hx))
        refine ⟨{ Name := name, URL := url } :: more, ?_, ?_⟩
        · simp only [appendRepos, hmore]
          simp
        · simp [hlisted, Repo.listed, Repository.listed]

theorem fetchedRepos_all_failed (script : List PageResponse)
    (h : ∀ p ∈ script, p.isFailed = true) : fetchedRepos script = [] := by
  induction script with
  | nil => rfl
  | cons p rest ih =>
    have hp := h p (List.mem_cons_self _ _)
    cases p with
    | fetched repos nextPage => simp [PageResponse.isFailed] at hp
    | failed resp err =>
      simp only [fetchedRepos, PageResponse.reposOf, List.nil_append]
      exact ih fun x hx => h x (List.mem_cons_of_mem _ hx)

/-- Counterexample to C4: the one page is fetched and lists a repository without an
SSH URL; `findRepos` returns it with a nil error, and `AllOrgRepos` panics on the nil
pointer, so it returns no nil error and `getReposCmd` no `gotRepoListMsg`. -/
theorem lookup_nil_field_counterexample :
    Paginates [.fetched [{ Name := some "a", SSHURL := none }] 0] ∧
      findRepos (fun _ => [.fetched [{ Name := some "a", SSHURL := none }] 0]) "o" =
        some ([{ Name := some "a", SSHURL := none }], none) ∧
      AllOrgRepos (fun _ _ => [.fetched [{ Name := some "a", SSHURL := none }] 0]) "t" "o" =
        .panics ∧
      getReposCmd (fun _ _ => [.fetched [{ Name := some "a", SSHURL := none }] 0]) fsIsDir
        "t" "o" "d" = .panics := by
  decide

/-- C4, amended: for every finite sequence of page responses, `findRepos` returns a
nil error with the in-order concatenation of the repositories of the pages fetched;
when each of these repositories carries a name and an SSH URL, `AllOrgRepos` returns
a nil error with them as name and SSH URL pairs in the same order, and when
`CreateDir` succeeds `getReposCmd` returns `gotRepoListMsg` with exactly those
repositories; `getReposCmd` comes to the same as for a clean lookup that lists them
on one page. -/
theorem lookup_with_failed_pages_is_clean (github : String → String → List PageResponse)
    (fs : FileSystem) (token org destination : String) (h : Paginates (github token org))
    (hnamed : ∀ repo ∈ fetchedRepos (github token org),
      repo.Name ≠ none ∧ repo.SSHURL ≠ none) :
    findRepos (github token) org = some (fetchedRepos (github token org), none) ∧
      (∃ repos, AllOrgRepos github token org = .returns (repos, none) ∧
        repos.map Repo.listed = (fetchedRepos (github token org)).map Repository.listed ∧
        ((CreateDir fs destination).1 = none →
          getReposCmd github fs token org destination = .returns (.gotRepoListMsg repos))) ∧
      getReposCmd github fs token org destination =
        getReposCmd (fun _ _ => [.fetched (fetchedRepos (github token org)) 0]) fs token org
          destination := by
  refine ⟨findRepos_paginates _ _ h, ?_, ?_⟩
  · obtain ⟨repos, hrepos, hlisted⟩ := appendRepos_listed _ [] hnamed
    simp only [List.nil_append] at hrepos
    refine ⟨repos, ?_, hlisted, ?_⟩
    · rw [AllOrgRepos_paginates _ _ _ h, hrepos]
    · intro hdir
      rw [getReposCmd_paginates _ _ _ _ _ h, hrepos, hdir]
  · rw [getReposCmd_paginates _ _ _ _ _ h, getReposCmd_paginates _ _ _ _ _
      (by simp [Paginates, PageResponse.nextPageOf])]
    simp [fetchedRepos, reposOf_fetched]

/-- Witness of C4, amended: the first page is fetched, the second fails, the third is
fetched and is the last. -/
theorem lookup_with_failed_pages_is_clean_witness :
    Paginates [.fetched [{ Name := some "a", SSHURL := some "git@github.com:o/a.git" }] 2,
        .failed (some 3) (.new "502 Bad Gateway"),
        .fetched [{ Name := some "c", SSHURL := some "git@github.com:o/c.git" }] 0] ∧
      getReposCmd
          (fun _ _ =>
            [.fetched [{ Name := some "a", SSHURL := some "git@github.com:o/a.git" }] 2,
              .failed (some 3) (.new "502 Bad Gateway"),
              .fetched [{ Name := some "c", SSHURL := some "git@github.com:o/c.git" }] 0])
          fsIsDir "t" "o" "d" =
        getReposCmd
          (fun _ _ =>
            [.fetched [{ Name := some "a", SSHURL := some "git@github.com:o/a.git" },
              { Name := some "c", SSHURL := some "git@github.com:o/c.git" }] 0])
          fsIsDir "t" "o" "d" ∧
      getReposCmd
          (fun _ _ =>
            [.fetched [{ Name := some "a", SSHURL := some "git@github.com:o/a.git" }] 2,
              .failed (some 3) (.new "502 Bad Gateway"),
              .fetched [{ Name := some "c", SSHURL := some "git@github.com:o/c.git" }] 0])
          fsIsDir "t" "o" "d" =
        .returns (.gotRepoListMsg [{ Name := "a", URL := "git@github.com:o/a.git" },
          { Name := "c", URL := "git@github.com:o/c.git" }]) :=
  ⟨by decide,
    (lookup_with_failed_pages_is_clean
      (fun _ _ =>
        [.fetched [{ Name := some "a", SSHURL := some "git@github.com:o/a.git" }] 2,
          .failed (some 3) (.new "502 Bad Gateway"),
          .fetched [{ Name := some "c", SSHURL := some "git@github.com:o/c.git" }] 0])
      fsIsDir "t" "o" "d" (by decide) (by decide)).2.2,
    by decide⟩

theorem findReposLoop_nil_error (script : List PageResponse) (result out : List Repository)
    (err : Option GoError) (h : findReposLoop script result = some (out, err)) : err = none := by
  induction script generalizing result with
  | nil => simp [findReposLoop] at h
  | cons p rest ih =>
    cases p with
    | fetched repos nextPage =>
      simp only [findReposLoop] at h
      split at h
      · simp only [Option.some.injEq, Prod.mk.injEq] at h
        exact h.2.symm
      · exact ih _ h
    | failed resp cause =>
      cases resp with
      | none =>
        simp only [findReposLoop, Option.some.injEq, Prod.mk.injEq] at h
        exact h.2.symm
      | some nextPage =>
        simp only [findReposLoop] at h
        split at h
        · exact ih _ h
        · simp only [Option.some.injEq, Prod.mk.injEq] at h
          exact h.2.symm

theorem AllOrgRepos_nil_error (github : String → String → List PageResponse)
    (token org : String) (repos : List Repo) (err : Option GoError)
    (h : AllOrgRepos github token org = .returns (repos, err)) : err = none := by
  unfold AllOrgRepos at h
  split at h
  · simp at h
  · next out cause hf =>
    have := findReposLoop_nil_error _ _ _ _ hf
    simp at this
  · split at h
    · simp at h
    · simp only [GoResult.returns.injEq, Prod.mk.injEq] at h
      exact h.2.symm

/-! ## The initial model -/

/-- C5: when the lookup succeeds and `CreateDir` fails, `getReposCmd` returns `errMsg`
with the error of `CreateDir`, and `Update` on it turns every initial model, so every
loading one, into the same model with `loading = false` and `err` set to that error,
with the `Quit` command; no clone model is made. -/
theorem create_dir_failure_is_fatal (spinnerUpdate : SpinnerModel → Msg → SpinnerModel × Cmd)
    (github : String → String → List PageResponse) (fs : FileSystem)
    (token org destination : String) (repos : List Repo) (e : GoError) (m : initialModel)
    (hlookup : AllOrgRepos github token org = .returns (repos, none))
    (hdir : (CreateDir fs destination).1 = some e) :
    getReposCmd github fs token org destination = .returns (.errMsg e) ∧
      m.Update spinnerUpdate (.errMsg e) =
        (.initial
          { err := some e, spinner := m.spinner, token := m.token, org := m.org,
            destination := m.destination, loading := false, tui := m.tui, width := m.width,
            height := m.height },
          .Quit) ∧
      (∀ list, (m.Update spinnerUpdate (.errMsg e)).1 ≠ .clone list) := by
  refine ⟨?_, rfl, ?_⟩
  · simp [getReposCmd, hlookup, hdir]
  · intro list
    simp [initialModel.Update]

/-- Witness of C5: one repository is listed and the destination is a file. -/
theorem create_dir_failure_is_fatal_witness :
    getReposCmd (fun _ _ => [.fetched [{ Name := some "a", SSHURL := some "u" }] 0])
        fsIsFile "t" "o" "d" =
        .returns (.errMsg (.wrap "failed to create directory: d is a file" ErrCreateDir)) ∧
      (NewInitialModel "t" "o" "d" true).Update (fun sp _ => (sp, .nil))
          (.errMsg (.wrap "failed to create directory: d is a file" ErrCreateDir)) =
        (.initial
          { err := some (.wrap "failed to create directory: d is a file" ErrCreateDir),
            spinner := { Spinner := "Jump", frame := 0 }, token := "t", org := "o",
            destination := "d", loading := false, tui := true, width := 0, height := 0 },
          .Quit) :=
  have h := create_dir_failure_is_fatal (fun sp _ => (sp, .nil))
    (fun _ _ => [.fetched [{ Name := some "a", SSHURL := some "u" }] 0])
    fsIsFile "t" "o" "d"
    [{ Name := "a", URL := "u" }] (.wrap "failed to create directory: d is a file" ErrCreateDir)
    (NewInitialModel "t" "o" "d" true) (by decide) (by decide)
  ⟨h.1, h.2.1⟩

/-- Counterexample to C6: the only page fetch fails (the response names no next
page), and the lookup reports no error:
`AllOrgRepos` returns an empty list with a nil error, `getReposCmd` returns
`gotRepoListMsg` with the empty list, and `Update` goes on to the clone model. -/
theorem lookup_failure_counterexample :
    AllOrgRepos (fun _ _ => [.failed (some 0) (.new "401 Bad credentials")]) "t" "o" =
        .returns ([], none) ∧
      getReposCmd (fun _ _ => [.failed (some 0) (.new "401 Bad credentials")])
          fsIsDir "t" "o" "d" =
        .returns (.gotRepoListMsg []) ∧
      (NewInitialModel "t" "o" "d" true).Update (fun sp _ => (sp, .nil)) (.gotRepoListMsg []) =
        (.clone (newCloneModel [] "o" "d" true 0 0),
          .cloneInit (newCloneModel [] "o" "d" true 0 0)) := by
  decide

/-- C6, amended: when every page fetch fails, `AllOrgRepos` returns the empty list
with a nil error (it returns a non-nil error for no answers of the listing call at
all); `getReposCmd` returns `gotRepoListMsg` with the empty list when `CreateDir`
succeeds and `errMsg` only with the error of `CreateDir`; and `Update` on that
`gotRepoListMsg` leaves the initial model for a clone model with an empty list. -/
theorem lookup_failure_is_empty_list (spinnerUpdate : SpinnerModel → Msg → SpinnerModel × Cmd)
    (github : String → String → List PageResponse) (fs : FileSystem)
    (token org destination : String) (m : initialModel)
    (hfail : ∀ p ∈ github token org, p.isFailed = true)
    (hfin : Paginates (github token org)) :
    AllOrgRepos github token org = .returns ([], none) ∧
      (∀ repos err, AllOrgRepos github token org ≠ .returns (repos, some err)) ∧
      getReposCmd github fs token org destination =
        .returns (match (CreateDir fs destination).1 with
          | some err => .errMsg err
          | none => .gotRepoListMsg []) ∧
      m.Update spinnerUpdate (.gotRepoListMsg []) =
        (.clone (newCloneModel [] m.org m.destination m.tui m.width m.height),
          .cloneInit (newCloneModel [] m.org m.destination m.tui m.width m.height)) := by
  refine ⟨?_, ?_, ?_, rfl⟩
  · rw [AllOrgRepos_paginates _ _ _ hfin, fetchedRepos_all_failed _ hfail]
    rfl
  · intro repos err h
    have := AllOrgRepos_nil_error _ _ _ _ _ h
    simp at this
  · rw [getReposCmd_paginates _ _ _ _ _ hfin, fetchedRepos_all_failed _ hfail]
    rfl

/-- Witness of C6, amended: two page fetches fail, the second without a next page. -/
theorem lookup_failure_is_empty_list_witness :
    AllOrgRepos (fun _ _ => [.failed (some 2) (.new "502 Bad Gateway"),
        .failed none (.new "dial tcp: connection refused")]) "t" "o" =
        .returns ([], none) ∧
      getReposCmd (fun _ _ => [.failed (some 2) (.new "502 Bad Gateway"),
          .failed none (.new "dial tcp: connection refused")])
          fsIsDir "t" "o" "d" =
        .returns (.gotRepoListMsg []) :=
  have h := lookup_failure_is_empty_list (fun sp _ => (sp, .nil))
    (fun _ _ => [.failed (some 2) (.new "502 Bad Gateway"),
      .failed none (.new "dial tcp: connection refused")])
    fsIsDir "t" "o" "d"
    (NewInitialModel "t" "o" "d" true) (by decide) (by decide)
  ⟨h.1, h.2.2.1⟩

/-- Counterexample to C7: on each cancellation key a loading model with no error
comes back still loading and with no error recorded (with the `Quit` command). -/
theorem cancel_key_counterexample :
    (NewInitialModel "t" "o" "d" true).Update (fun sp _ => (sp, .nil)) (.KeyMsg "ctrl+c") =
        (.initial (NewInitialModel "t" "o" "d" true), .Quit) ∧
      (NewInitialModel "t" "o" "d" true).Update (fun sp _ => (sp, .nil)) (.KeyMsg "q") =
        (.initial (NewInitialModel "t" "o" "d" true), .Quit) ∧
      (NewInitialModel "t" "o" "d" true).Update (fun sp _ => (sp, .nil)) (.KeyMsg "esc") =
        (.initial (NewInitialModel "t" "o" "d" true), .Quit) ∧
      (NewInitialModel "t" "o" "d" true).loading = true ∧
      (NewInitialModel "t" "o" "d" true).err = none := by
  decide

/-- C7, amended: for every initial model and each of the keys ctrl+c, q and esc,
`Update` returns the model unchanged, so with the `loading` and `err` it had,
together with the `Quit` command. -/
theorem cancel_key_quits_unchanged (spinnerUpdate : SpinnerModel → Msg → SpinnerModel × Cmd)
    (m : initialModel) (key : String) (hkey : key = "ctrl+c" ∨ key = "q" ∨ key = "esc") :
    m.Update spinnerUpdate (.KeyMsg key) = (.initial m, .Quit) := by
  simp [initialModel.Update, hkey]

/-- Witness of C7, amended: the key esc on a model that already holds an error. -/
theorem cancel_key_quits_unchanged_witness :
    initialModel.Update (fun sp _ => (sp, .nil))
        { NewInitialModel "t" "o" "d" false with loading := false, err := some ErrCreateDir }
        (.KeyMsg "esc") =
      (.initial
        { NewInitialModel "t" "o" "d" false with loading := false, err := some ErrCreateDir },
        .Quit) :=
  cancel_key_quits_unchanged _ _ "esc" (by decide)

/-! ## The command-line action -/

/-- Counterexample to C8: token and organization are given, the first message is an
`errMsg`, so the program quits with `err` set in its final model, and the action
returns nil: the exit status is zero. -/
theorem fatal_run_exit_counterexample :
    (programRun (Model.Update (fun sp _ => (sp, .nil)) (fun list _ => (.clone list, .nil))) none
        [.errMsg ErrCreateDir] (.initial (NewInitialModel "t" "o" "d" false))) =
        { final := .initial
            { NewInitialModel "t" "o" "d" false with loading := false, err := some ErrCreateDir }
          quit := true
          err := none } ∧
      action
          (fun m _ =>
            (programRun (Model.Update (fun sp _ => (sp, .nil)) (fun list _ => (.clone list, .nil)))
              none [.errMsg ErrCreateDir] (.initial m)).err)
          { isTerminal := false, TempDir := "/tmp" }
          { token := "t", org := "o", destination := "d", noTui := false } = none ∧
      exitStatus
          (action
            (fun m _ =>
              (programRun
                (Model.Update (fun sp _ => (sp, .nil)) (fun list _ => (.clone list, .nil)))
                none [.errMsg ErrCreateDir] (.initial m)).err)
            { isTerminal := false, TempDir := "/tmp" }
            { token := "t", org := "o", destination := "d", noTui := false }) = 0 := by
  decide

/-- C8, amended: with a non-empty token and organization the action returns an exit
error, of code 1, exactly when `p.Start()` returns an error; the messages the program
handled do not matter, and a run that starts with an `errMsg`, which ends with `err`
set in the final model and the program quit, exits with status zero. -/
theorem exit_status_from_start_error
    (spinnerUpdate : SpinnerModel → Msg → SpinnerModel × Cmd)
    (cloneUpdate : cloneModel → Msg → Model × Cmd) (failure : Option GoError)
    (msgs : List Msg) (env : Env) (c : Context) (ht : c.token ≠ "") (ho : c.org ≠ "") :
    (action (fun m _ =>
          (programRun (Model.Update spinnerUpdate cloneUpdate) failure msgs (.initial m)).err)
        env c = none ↔ failure = none) ∧
      exitStatus (action (fun m _ =>
          (programRun (Model.Update spinnerUpdate cloneUpdate) failure msgs (.initial m)).err)
        env c) = (if failure = none then 0 else 1) ∧
      (∀ (e : GoError) (rest : List Msg) (m : initialModel),
        programRun (Model.Update spinnerUpdate cloneUpdate) none (.errMsg e :: rest)
            (.initial m) =
          { final := .initial { m with loading := false, err := some e }
            quit := true
            err := none }) := by
  cases failure with
  | none =>
    refine ⟨?_, ?_, ?_⟩
    · simp [action, ht, ho, programRun]
    · simp [action, ht, ho, programRun, exitStatus]
    · intro e rest m
      simp [programRun, eventLoop, Model.Update, initialModel.Update]
  | some err =>
    refine ⟨?_, ?_, ?_⟩
    · simp [action, ht, ho, programRun]
    · simp [action, ht, ho, programRun, exitStatus]
    · intro e rest m
      simp [programRun, eventLoop, Model.Update, initialModel.Update]

/-- Witness of C8, amended: the terminal cannot be set up, so `p.Start()` fails and
the exit status is 1. -/
theorem exit_status_from_start_error_witness :
    exitStatus (action (fun m _ =>
        (programRun (Model.Update (fun sp _ => (sp, .nil)) (fun list _ => (.clone list, .nil)))
          (some (.new "could not open a new TTY")) [] (.initial m)).err)
      { isTerminal := true, TempDir := "/tmp" }
      { token := "t", org := "o", destination := "", noTui := false }) =
        (if some (GoError.new "could not open a new TTY") = none then 0 else 1) :=
  (exit_status_from_start_error (fun sp _ => (sp, .nil)) (fun list _ => (.clone list, .nil))
    (some (.new "could not open a new TTY")) []
    { isTerminal := true, TempDir := "/tmp" }
    { token := "t", org := "o", destination := "", noTui := false }
    (by decide) (by decide)).2.1

/-! ## `CreateDir` -/

theorem ErrCreateDir_text : ErrCreateDir.Error ++ ": " = "failed to create directory: " := by
  decide

theorem is_a_file_ne_create_failure (directory cause : String) :
    "failed to create directory: " ++ directory ++ " is a file" ≠
      "failed to create directory: " ++ directory ++ ": " ++ cause := by
  intro h
  have hd := congrArg String.data h
  simp only [String.data_append, List.append_assoc, List.append_cancel_left_eq] at hd
  simp at hd

/-- Counterexample to C9: for the same path, the error of `CreateDir` when the path is
a file and its error when the creation fails wrap one and the same error,
`ErrCreateDir`: they are of the same kind. -/
theorem create_dir_kind_counterexample :
    (CreateDir fsIsFile "d").1 =
        some (.wrap "failed to create directory: d is a file" ErrCreateDir) ∧
      (CreateDir fsMkdirDenied "d").1 =
        some (.wrap "failed to create directory: d: mkdir d: permission denied" ErrCreateDir) ∧
      (GoError.wrap "failed to create directory: d is a file" ErrCreateDir).Unwrap =
        (GoError.wrap "failed to create directory: d: mkdir d: permission denied"
          ErrCreateDir).Unwrap := by
  decide

/-- C9, amended: `CreateDir` returns nil without any creation attempt when the path
is a directory; it attempts `MkdirAll` exactly when `os.Stat` fails on the path, and
then returns nil iff the creation succeeds and otherwise an error wrapping
`ErrCreateDir`; when the path exists and is not a directory it attempts nothing and
returns an error that wraps the same `ErrCreateDir`, with the message
`failed to create directory: <path> is a file`, which differs from the message of
every creation failure for the same path. -/
theorem create_dir_outcomes (fs : FileSystem) (directory : String) :
    (fs.Stat directory = .info true → CreateDir fs directory = (none, [.stat directory])) ∧
      (FsCall.mkdirAll directory 0o700 ∈ (CreateDir fs directory).2 ↔
        ∃ text, fs.Stat directory = .error text) ∧
      ((∃ text, fs.Stat directory = .error text) →
        ((CreateDir fs directory).1 = none ↔ fs.MkdirAll directory = none) ∧
        ∀ cause, fs.MkdirAll directory = some cause →
          (CreateDir fs directory).1 =
            some (.wrap ("failed to create directory: " ++ directory ++ ": " ++ cause.Error)
              ErrCreateDir)) ∧
      (fs.Stat directory = .info false →
        CreateDir fs directory =
          (some (.wrap ("failed to create directory: " ++ directory ++ " is a file")
            ErrCreateDir), [.stat directory]) ∧
        ∀ cause : GoError,
          (GoError.wrap ("failed to create directory: " ++ directory ++ " is a file")
              ErrCreateDir).Unwrap =
            (GoError.wrap ("failed to create directory: " ++ directory ++ ": " ++ cause.Error)
              ErrCreateDir).Unwrap ∧
          (GoError.wrap ("failed to create directory: " ++ directory ++ " is a file")
              ErrCreateDir).Error ≠
            (GoError.wrap ("failed to create directory: " ++ directory ++ ": " ++ cause.Error)
              ErrCreateDir).Error) := by
  refine ⟨?_, ?_, ?_, ?_⟩
  · intro h
    simp [CreateDir, h]
  · cases hs : fs.Stat directory with
    | error text => cases hm : fs.MkdirAll directory <;> simp [CreateDir, hs, hm]
    | info isDir => cases isDir <;> simp [CreateDir, hs]
  · rintro ⟨text, hs⟩
    constructor
    · cases hm : fs.MkdirAll directory <;> simp [CreateDir, hs, hm]
    · intro cause hm
      simp only [CreateDir, hs, hm]
      rw [ErrCreateDir_text]
  · intro hs
    constructor
    · simp only [CreateDir, hs]
      rw [ErrCreateDir_text]
      rfl
    · intro cause
      exact ⟨rfl, is_a_file_ne_create_failure directory cause.Error⟩

/-- Witness of C9, amended: the three cases at the path `d`. -/
theorem create_dir_outcomes_witness :
    CreateDir fsIsDir "d" =
        (none, [.stat "d"]) ∧
      (CreateDir fsMkdirDenied "d").1 =
        some (.wrap ("failed to create directory: " ++ "d" ++ ": " ++
          (GoError.new "mkdir d: permission denied").Error) ErrCreateDir) ∧
      CreateDir fsIsFile "d" =
        (some (.wrap ("failed to create directory: " ++ "d" ++ " is a file") ErrCreateDir),
          [.stat "d"]) :=
  ⟨(create_dir_outcomes fsIsDir "d").1 rfl,
    ((create_dir_outcomes fsMkdirDenied "d").2.2.1
      ⟨_, rfl⟩).2 _ rfl,
    ((create_dir_outcomes fsIsFile "d").2.2.2
      rfl).1⟩

/-! ## The clone command and its target -/

theorem splitSlash_ne_nil (l : List Char) : splitSlash l ≠ [] := by
  cases l with
  | nil => simp [splitSlash]
  | cons c cs =>
    simp only [splitSlash]
    split
    · simp
    · split <;> simp

theorem splitSlash_append_slash (a b : List Char) :
    splitSlash (a ++ '/' :: b) = splitSlash a ++ splitSlash b := by
  induction a with
  | nil => simp [splitSlash]
  | cons c cs ih =>
    by_cases hc : c = '/'
    · simp [splitSlash, hc, ih]
    · simp only [List.cons_append, splitSlash, hc, if_false]
      simp only [List.append_eq]
      rw [ih]
      cases hs : splitSlash cs with
      | nil => exact absurd hs (splitSlash_ne_nil cs)
      | cons piece pieces => simp

theorem splitSlash_plain (n : List Char) (h : '/' ∉ n) : splitSlash n = [n] := by
  induction n with
  | nil => rfl
  | cons c cs ih =>
    have hc : c ≠ '/' := fun e => h (by simp [e])
    have hcs : '/' ∉ cs := fun e => h (List.mem_cons_of_mem _ e)
    simp [splitSlash, hc, ih hcs]

theorem cleanStep_plain (rooted : Bool) (out : List (List Char)) (n : List Char)
    (h0 : n ≠ []) (h1 : n ≠ ['.']) (h2 : n ≠ ['.', '.']) :
    cleanStep rooted out n = out ++ [n] := by
  simp [cleanStep, h0, h1, h2]

theorem joinSlash_append_singleton (out : List (List Char)) (n : List Char) :
    joinSlash (out ++ [n]) = if out = [] then n else joinSlash out ++ '/' :: n := by
  induction out with
  | nil => simp [joinSlash]
  | cons a rest ih =>
    cases rest with
    | nil => simp [joinSlash]
    | cons b rest' =>
      have ih' : joinSlash (b :: (rest' ++ [n])) = joinSlash (b :: rest') ++ '/' :: n := by
        simpa using ih
      show joinSlash (a :: b :: (rest' ++ [n])) =
        if a :: b :: rest' = [] then n else joinSlash (a :: b :: rest') ++ '/' :: n
      simp only [joinSlash, ih', reduceCtorEq, if_false, List.append_assoc, List.cons_append]

theorem joinChars_plain (dir n : List Char) (h0 : n ≠ []) (hs : '/' ∉ n) (h1 : n ≠ ['.'])
    (h2 : n ≠ ['.', '.']) : filepath.joinChars [dir, n] = cleanedDir dir ++ n := by
  have hhead : n.head? ≠ some '/' := by
    cases n with
    | nil => simp
    | cons c cs =>
      simp only [List.head?_cons, ne_eq, Option.some.injEq]
      intro e
      exact hs (by simp [e])
  by_cases hd : dir = []
  · subst hd
    simp [filepath.joinChars, h0, joinSlash, filepath.Clean, cleanedDir, splitSlash_plain n hs,
      cleanStep_plain _ _ n h0 h1 h2, hhead]
  · have hrooted : (dir ++ '/' :: n).head? = dir.head? := by
      cases dir with
      | nil => exact absurd rfl hd
      | cons c cs => rfl
    simp only [filepath.joinChars, hd, if_false, joinSlash, filepath.Clean, cleanedDir]
    simp only [List.append_eq_nil, hd, false_and, if_false, hrooted, splitSlash_append_slash,
      splitSlash_plain n hs, List.foldl_append, List.foldl_cons, List.foldl_nil,
      cleanStep_plain _ _ n h0 h1 h2, joinSlash_append_singleton]
    by_cases hr : dir.head? = some '/'
    · by_cases ho : List.foldl (cleanStep true) [] (splitSlash dir) = []
      · simp [hr, ho]
      · simp [hr, ho]
    · by_cases ho : List.foldl (cleanStep false) [] (splitSlash dir) = []
      · simp [hr, ho, h0]
      · simp [hr, ho]

theorem cloneTarget_plain (repo : Repo) (destination : String) (h : plainName repo.Name) :
    cloneTarget repo destination = String.mk (cleanedDir destination.data ++ repo.Name.data) := by
  obtain ⟨h0, hs, h1, h2⟩ := h
  simp only [cloneTarget, filepath.Join, List.map_cons, List.map_nil]
  rw [joinChars_plain _ _ h0 hs h1 h2]

/-- Counterexample to C10: two repositories with different names whose clones into
the same destination have the same target path. -/
theorem clone_target_counterexample :
    ({ Name := "x", URL := "git@github.com:o/x.git" } : Repo).Name ≠
        ({ Name := "./x", URL := "git@github.com:o/y.git" } : Repo).Name ∧
      cloneTarget { Name := "x", URL := "git@github.com:o/x.git" } "d" = "d/x" ∧
      cloneTarget { Name := "./x", URL := "git@github.com:o/y.git" } "d" = "d/x" := by
  decide

/-- C10, amended: the single external command an admitted `Clone` call runs is git
with exactly the arguments `clone`, `--depth`, `1`, `repo.URL` and
`filepath.Join(destination, repo.Name)`; for two repositories whose names are
different plain path elements (not empty, without a separator, neither `.` nor
`..`) the target paths in the same destination are different. -/
theorem clone_command_and_target (run : Command → ProcOutcome) (repo : Repo)
    (destination : String) (w : World) (h : w.sem < semCap) :
    (∃ ret, Clone run repo destination w =
        some (ret,
          { sem := w.sem
            ran := w.ran ++
              [{ Name := "git"
                 Args := ["clone", "--depth", "1", repo.URL,
                   filepath.Join [destination, repo.Name]] }] })) ∧
      (∀ other : Repo, plainName repo.Name → plainName other.Name →
        repo.Name ≠ other.Name → cloneTarget repo destination ≠ cloneTarget other destination) := by
  refine ⟨⟨_, Clone_admitted run repo destination w h⟩, ?_⟩
  intro other hp hq hne heq
  rw [cloneTarget_plain _ _ hp, cloneTarget_plain _ _ hq] at heq
  have hd := congrArg String.data heq
  simp only [List.append_cancel_left_eq] at hd
  exact hne (String.ext hd)

/-- Witness of C10, amended: one clone with nothing held and nothing run before. -/
theorem clone_command_and_target_witness :
    ∃ ret, Clone (fun _ => .exited 0 "") { Name := "a", URL := "git@github.com:o/a.git" } "/tmp/o"
        { sem := 0, ran := [] } =
      some (ret,
        { sem := 0
          ran := [] ++
            [{ Name := "git"
               Args := ["clone", "--depth", "1", "git@github.com:o/a.git",
                 filepath.Join ["/tmp/o", "a"]] }] }) :=
  (clone_command_and_target (fun _ => .exited 0 "")
    { Name := "a", URL := "git@github.com:o/a.git" } "/tmp/o" { sem := 0, ran := [] }
    (by decide)).1

end CloneOrg
